import Mathlib

/-!
Verification of the interactive Bézier-curve physics system.

The JavaScript sources are shallowly embedded over exact rationals:
a point `{x, y}` becomes a `Point` of two `ℚ` fields, arrays become
lists, and a read of a property of `undefined` (an out-of-range array
access followed by a field access, which throws a `TypeError` in
JavaScript) is modelled by `Option`, `none` standing for the fault.
Square roots (`Math.sqrt`) are modelled exactly with `Real.sqrt`.
-/

/-- A 2-D point or vector, the `{x, y}` object of the sources. -/
@[ext]
structure Point where
  x : ℚ
  y : ℚ
deriving DecidableEq, Repr

namespace BezierCurve

/-- Embedding of `BezierCurve.calculatePoint` from `bezier.js`: the cubic Bézier point
`B(t) = u³P₀ + 3u²tP₁ + 3ut²P₂ + t³P₃` with `u = 1 - t`, guarded by the
four-control-point check (`throw` becomes `Except.error`). -/
def calculatePoint (controlPoints : List Point) (t : ℚ) : Except String Point :=
  if controlPoints.length ≠ 4 then
    .error ("Bezier curve requires exactly 4 control points")
  else
    let p0 := controlPoints.getD 0 ⟨0, 0⟩
    let p1 := controlPoints.getD 1 ⟨0, 0⟩
    let p2 := controlPoints.getD 2 ⟨0, 0⟩
    let p3 := controlPoints.getD 3 ⟨0, 0⟩
    let u := 1 - t
    let u2 := u * u
    let u3 := u2 * u
    let t2 := t * t
    let t3 := t2 * t
    .ok ⟨u3 * p0.x + 3 * u2 * t * p1.x + 3 * u * t2 * p2.x + t3 * p3.x,
         u3 * p0.y + 3 * u2 * t * p1.y + 3 * u * t2 * p2.y + t3 * p3.y⟩

/-- Embedding of `BezierCurve.calculateTangent` from `bezier.js`: the derivative vector
`B'(t) = 3u²(P₁-P₀) + 6ut(P₂-P₁) + 3t²(P₃-P₂)` with `u = 1 - t`, under the
same four-point guard. -/
def calculateTangent (controlPoints : List Point) (t : ℚ) : Except String Point :=
  if controlPoints.length ≠ 4 then
    .error ("Bezier curve requires exactly 4 control points")
  else
    let p0 := controlPoints.getD 0 ⟨0, 0⟩
    let p1 := controlPoints.getD 1 ⟨0, 0⟩
    let p2 := controlPoints.getD 2 ⟨0, 0⟩
    let p3 := controlPoints.getD 3 ⟨0, 0⟩
    let u := 1 - t
    let u2 := u * u
    let t2 := t * t
    .ok ⟨3 * u2 * (p1.x - p0.x) + 6 * u * t * (p2.x - p1.x) + 3 * t2 * (p3.x - p2.x),
         3 * u2 * (p1.y - p0.y) + 6 * u * t * (p2.y - p1.y) + 3 * t2 * (p3.y - p2.y)⟩

open Classical in
/-- Embedding of `BezierCurve.calculateNormalizedTangent` from `bezier.js`: the tangent
divided by its Euclidean length, and the zero vector when that length is
exactly zero. The square root forces real-valued components. -/
noncomputable def calculateNormalizedTangent (controlPoints : List Point) (t : ℚ) :
    Except String (ℝ × ℝ) :=
  match calculateTangent controlPoints t with
  | .error e => .error e
  | .ok tangent =>
    let length : ℝ :=
      Real.sqrt ((tangent.x : ℝ) * (tangent.x : ℝ) + (tangent.y : ℝ) * (tangent.y : ℝ))
    if length = 0 then .ok (0, 0)
    else .ok ((tangent.x : ℝ) / length, (tangent.y : ℝ) / length)

end BezierCurve

/-- C1: on a four-point control set `calculatePoint` returns exactly the cubic
Bernstein blend `(u³P₀ + 3u²tP₁ + 3ut²P₂ + t³P₃)` componentwise, with
`u = 1 - t`; in particular it returns `P₀` at `t = 0` and `P₃` at `t = 1`. -/
theorem calculatePoint_bernstein_and_endpoints (p0 p1 p2 p3 : Point) (t : ℚ) :
    BezierCurve.calculatePoint [p0, p1, p2, p3] t =
      .ok ⟨(1 - t) ^ 3 * p0.x + 3 * (1 - t) ^ 2 * t * p1.x
            + 3 * (1 - t) * t ^ 2 * p2.x + t ^ 3 * p3.x,
           (1 - t) ^ 3 * p0.y + 3 * (1 - t) ^ 2 * t * p1.y
            + 3 * (1 - t) * t ^ 2 * p2.y + t ^ 3 * p3.y⟩ ∧
    BezierCurve.calculatePoint [p0, p1, p2, p3] 0 = .ok p0 ∧
    BezierCurve.calculatePoint [p0, p1, p2, p3] 1 = .ok p3 := by
  refine ⟨?_, ?_, ?_⟩ <;> simp [BezierCurve.calculatePoint] <;>
    constructor <;> first | ring | trivial

/-- Derivative of a generic cubic over `ℚ`, used to relate `calculateTangent`
to the analytic derivative of `calculatePoint`. -/
theorem cubic_hasDerivAt (a b c d t : ℚ) :
    HasDerivAt (fun s : ℚ => a + (3 * b - 3 * a) * s + (3 * a - 6 * b + 3 * c) * s ^ 2
        + (-a + 3 * b - 3 * c + d) * s ^ 3)
      ((3 * b - 3 * a) + (3 * a - 6 * b + 3 * c) * (2 * t)
        + (-a + 3 * b - 3 * c + d) * (3 * t ^ 2)) t := by
  have h1 : HasDerivAt (fun s : ℚ => s) 1 t := hasDerivAt_id t
  have h2 : HasDerivAt (fun s : ℚ => s ^ 2) (2 * t) t := by
    simpa using hasDerivAt_pow 2 t
  have h3 : HasDerivAt (fun s : ℚ => s ^ 3) (3 * t ^ 2) t := by
    simpa using hasDerivAt_pow 3 t
  have h := (((hasDerivAt_const t a).add (h1.const_mul (3 * b - 3 * a))).add
      (h2.const_mul (3 * a - 6 * b + 3 * c))).add
      (h3.const_mul (-a + 3 * b - 3 * c + d))
  convert h using 1
  ring

/-- The x-coordinate of `calculatePoint` as a function of the parameter,
with the `Except` unwrapped (on a four-point set it is always `.ok`). -/
def evaluateX (p0 p1 p2 p3 : Point) (s : ℚ) : ℚ :=
  ((BezierCurve.calculatePoint [p0, p1, p2, p3] s).toOption.getD ⟨0, 0⟩).x

/-- The y-coordinate of `calculatePoint` as a function of the parameter. -/
def evaluateY (p0 p1 p2 p3 : Point) (s : ℚ) : ℚ :=
  ((BezierCurve.calculatePoint [p0, p1, p2, p3] s).toOption.getD ⟨0, 0⟩).y

/-- C2: on a four-point set `calculateTangent` returns exactly
`3u²(P₁-P₀) + 6ut(P₂-P₁) + 3t²(P₃-P₂)` with `u = 1 - t`, and that vector is
the exact analytic derivative (in the sense of `HasDerivAt`) of the curve
point computed by `calculatePoint`, componentwise, as an identity in `t`. -/
theorem calculateTangent_eq_deriv_of_calculatePoint (p0 p1 p2 p3 : Point) (t : ℚ) :
    BezierCurve.calculateTangent [p0, p1, p2, p3] t =
      .ok ⟨3 * (1 - t) ^ 2 * (p1.x - p0.x) + 6 * (1 - t) * t * (p2.x - p1.x)
            + 3 * t ^ 2 * (p3.x - p2.x),
           3 * (1 - t) ^ 2 * (p1.y - p0.y) + 6 * (1 - t) * t * (p2.y - p1.y)
            + 3 * t ^ 2 * (p3.y - p2.y)⟩ ∧
    HasDerivAt (evaluateX p0 p1 p2 p3)
      (3 * (1 - t) ^ 2 * (p1.x - p0.x) + 6 * (1 - t) * t * (p2.x - p1.x)
        + 3 * t ^ 2 * (p3.x - p2.x)) t ∧
    HasDerivAt (evaluateY p0 p1 p2 p3)
      (3 * (1 - t) ^ 2 * (p1.y - p0.y) + 6 * (1 - t) * t * (p2.y - p1.y)
        + 3 * t ^ 2 * (p3.y - p2.y)) t := by
  refine ⟨?_, ?_, ?_⟩
  · simp [BezierCurve.calculateTangent]
    constructor <;> ring
  · have hfun : evaluateX p0 p1 p2 p3 =
        fun s : ℚ => p0.x + (3 * p1.x - 3 * p0.x) * s
          + (3 * p0.x - 6 * p1.x + 3 * p2.x) * s ^ 2
          + (-p0.x + 3 * p1.x - 3 * p2.x + p3.x) * s ^ 3 := by
      funext s
      simp [evaluateX, BezierCurve.calculatePoint, Except.toOption]
      ring
    rw [hfun]
    convert cubic_hasDerivAt p0.x p1.x p2.x p3.x t using 1
    ring
  · have hfun : evaluateY p0 p1 p2 p3 =
        fun s : ℚ => p0.y + (3 * p1.y - 3 * p0.y) * s
          + (3 * p0.y - 6 * p1.y + 3 * p2.y) * s ^ 2
          + (-p0.y + 3 * p1.y - 3 * p2.y + p3.y) * s ^ 3 := by
      funext s
      simp [evaluateY, BezierCurve.calculatePoint, Except.toOption]
      ring
    rw [hfun]
    convert cubic_hasDerivAt p0.y p1.y p2.y p3.y t using 1
    ring

/-- The state fields of `PhysicsSystem` from `physics.js` (the constructor's
instance variables). Velocities and rest positions start empty; the numeric
tunables start at `k = 0.15`, `damping = 0.88`, `mouseInfluence = 0.8`. -/
structure PhysicsSystem where
  springConstant : ℚ
  damping : ℚ
  velocities : List Point
  restPositions : List Point
  mouseInfluence : ℚ
deriving DecidableEq, Repr

namespace PhysicsSystem

/-- State built by `new PhysicsSystem()`: the constructor's initial state. -/
def new : PhysicsSystem := ⟨0.15, 0.88, [], [], 0.8⟩

/-- Embedding of `PhysicsSystem.setupControlPoints`: reset both arrays, then push a zero
velocity and a copy of each control point as its rest position. -/
def setupControlPoints (ps : PhysicsSystem) (controlPoints : List Point) : PhysicsSystem :=
  { ps with
    velocities := controlPoints.map fun _ => ⟨0, 0⟩
    restPositions := controlPoints.map fun p => ⟨p.x, p.y⟩ }

/-- One iteration of the loop body of `PhysicsSystem.update` at index `i`:
the `continue` guard for `i ≥ controlPoints.length`, then spring force,
damping force, Euler integration of velocity and position, and the `0.995`
velocity decay. Reads of `velocities[i]`/`restPositions[i]` go through
`List.get?`: `none` models the `TypeError` a JavaScript read of a field of
`undefined` raises. -/
def updateAt (ps : PhysicsSystem) (controlPoints : List Point) (i : ℕ) :
    Option (PhysicsSystem × List Point) :=
  if controlPoints.length ≤ i then some (ps, controlPoints)
  else
    match controlPoints.get? i, ps.velocities.get? i, ps.restPositions.get? i with
    | some point, some velocity, some restPosition =>
      let displacementX := point.x - restPosition.x
      let displacementY := point.y - restPosition.y
      let springForceX := -ps.springConstant * displacementX
      let springForceY := -ps.springConstant * displacementY
      let dampingForceX := -ps.damping * velocity.x
      let dampingForceY := -ps.damping * velocity.y
      let accelerationX := springForceX + dampingForceX
      let accelerationY := springForceY + dampingForceY
      let vx := velocity.x + accelerationX
      let vy := velocity.y + accelerationY
      let px := point.x + vx
      let py := point.y + vy
      some ({ ps with velocities := ps.velocities.set i ⟨vx * 0.995, vy * 0.995⟩ },
            controlPoints.set i ⟨px, py⟩)
    | _, _, _ => none

/-- Embedding of `PhysicsSystem.update`: the loop over indices 1 and 2,
i.e. the index-1 iteration followed by the index-2 iteration. -/
def update (ps : PhysicsSystem) (controlPoints : List Point) :
    Option (PhysicsSystem × List Point) :=
  match ps.updateAt controlPoints 1 with
  | some (ps1, cps1) => ps1.updateAt cps1 2
  | none => none

/-- Embedding of `PhysicsSystem.applyForceToPoint`: guarded no-op for
`index < 1 || index > 2 || index >= controlPoints.length`; otherwise nudge
the rest position toward the target by `mouseInfluence` and add
`0.1 · (target - point)` to the velocity. Control points are only read. -/
def applyForceToPoint (ps : PhysicsSystem) (index : ℤ) (targetX targetY : ℚ)
    (controlPoints : List Point) : Option PhysicsSystem :=
  if index < 1 ∨ 2 < index ∨ (controlPoints.length : ℤ) ≤ index then some ps
  else
    match controlPoints.get? index.toNat, ps.restPositions.get? index.toNat,
        ps.velocities.get? index.toNat with
    | some point, some restPosition, some velocity =>
      let newRest : Point :=
        ⟨restPosition.x + (targetX - restPosition.x) * ps.mouseInfluence,
         restPosition.y + (targetY - restPosition.y) * ps.mouseInfluence⟩
      let newVelocity : Point :=
        ⟨velocity.x + (targetX - point.x) * 0.1,
         velocity.y + (targetY - point.y) * 0.1⟩
      some { ps with
             restPositions := ps.restPositions.set index.toNat newRest
             velocities := ps.velocities.set index.toNat newVelocity }
    | _, _, _ => none

/-- Embedding of `PhysicsSystem.resetPoint`: zero the velocity at `index` when
`index < restPositions.length`, else do nothing. -/
def resetPoint (ps : PhysicsSystem) (index : ℕ) : PhysicsSystem :=
  if index < ps.restPositions.length then
    { ps with velocities := ps.velocities.set index ⟨0, 0⟩ }
  else ps

end PhysicsSystem

/-- C3: a single `update` on a four-point set performs exactly the claimed
transition at indices 1 and 2 in order: with displacement `d = point - anchor`,
the velocity becomes `v + (-k·d - c·v)`, the position advances by that new
velocity, and the stored velocity is then scaled by `0.995`; anchors
(rest positions) are untouched, as are indices 0 and 3. -/
theorem update_step_formula (k c inf : ℚ) (w0 w1 w2 w3 r0 r1 r2 r3 q0 q1 q2 q3 : Point) :
    PhysicsSystem.update ⟨k, c, [w0, w1, w2, w3], [r0, r1, r2, r3], inf⟩ [q0, q1, q2, q3] =
      some (⟨k, c,
             [w0,
              ⟨(w1.x + (-k * (q1.x - r1.x) - c * w1.x)) * 0.995,
               (w1.y + (-k * (q1.y - r1.y) - c * w1.y)) * 0.995⟩,
              ⟨(w2.x + (-k * (q2.x - r2.x) - c * w2.x)) * 0.995,
               (w2.y + (-k * (q2.y - r2.y) - c * w2.y)) * 0.995⟩,
              w3],
             [r0, r1, r2, r3], inf⟩,
            [q0,
             ⟨q1.x + (w1.x + (-k * (q1.x - r1.x) - c * w1.x)),
              q1.y + (w1.y + (-k * (q1.y - r1.y) - c * w1.y))⟩,
             ⟨q2.x + (w2.x + (-k * (q2.x - r2.x) - c * w2.x)),
              q2.y + (w2.y + (-k * (q2.y - r2.y) - c * w2.y))⟩,
             q3]) := by
  simp [PhysicsSystem.update, PhysicsSystem.updateAt, List.set]
  refine ⟨⟨⟨Or.inl (by ring), Or.inl (by ring)⟩, Or.inl (by ring), Or.inl (by ring)⟩,
    ⟨by ring, by ring⟩, by ring, by ring⟩

/-- One loop iteration of `update` leaves every control point other than the
one at its own index untouched. -/
theorem updateAt_get?_preserved (ps : PhysicsSystem) (cps : List Point) (i j : ℕ)
    (pr : PhysicsSystem × List Point) (h : ps.updateAt cps i = some pr) (hij : j ≠ i) :
    pr.2.get? j = cps.get? j := by
  unfold PhysicsSystem.updateAt at h
  split at h
  · injection h with h
    subst h
    rfl
  · split at h
    · injection h with h
      subst h
      exact List.get?_set_ne _ _ fun hh => hij hh.symm
    · exact absurd h (by simp)

/-- Similarly, one loop iteration never changes the rest positions. -/
theorem updateAt_restPositions (ps : PhysicsSystem) (cps : List Point) (i : ℕ)
    (pr : PhysicsSystem × List Point) (h : ps.updateAt cps i = some pr) :
    pr.1.restPositions = ps.restPositions := by
  unfold PhysicsSystem.updateAt at h
  split at h
  · injection h with h
    subst h
    rfl
  · split at h
    · injection h with h
      subst h
      rfl
    · exact absurd h (by simp)

/-- C4: `update` writes control-point positions only at indices 1 and 2 — in
particular `controlPoints[0]` and `controlPoints[3]` are never mutated — and
it never modifies the anchors (rest positions).  `applyForceToPoint` and
`resetPoint` write no control-point position at all: in the embedding they
return only the new `PhysicsSystem` (the source functions only read the
control-point array), and `applyForceToPoint` moreover changes nothing
outside the velocity and anchor of the requested index. -/
theorem springSimulator_never_moves_fixed_points (ps : PhysicsSystem) (cps : List Point)
    (pr : PhysicsSystem × List Point) (index : ℤ) (tx ty : ℚ) (ps' : PhysicsSystem)
    (hu : ps.update cps = some pr)
    (ha : ps.applyForceToPoint index tx ty cps = some ps') :
    (∀ j : ℕ, j ≠ 1 → j ≠ 2 → pr.2.get? j = cps.get? j) ∧
    pr.1.restPositions = ps.restPositions ∧
    (∀ j : ℕ, (j : ℤ) ≠ index →
      ps'.velocities.get? j = ps.velocities.get? j ∧
      ps'.restPositions.get? j = ps.restPositions.get? j) ∧
    ps'.springConstant = ps.springConstant ∧ ps'.damping = ps.damping ∧
    ps'.mouseInfluence = ps.mouseInfluence := by
  constructor
  · unfold PhysicsSystem.update at hu
    split at hu
    · rename_i ps1 cps1 h1
      intro j hj1 hj2
      rw [updateAt_get?_preserved ps1 cps1 2 j pr hu hj2,
        updateAt_get?_preserved ps cps 1 j (ps1, cps1) h1 hj1]
    · exact absurd hu (by simp)
  constructor
  · unfold PhysicsSystem.update at hu
    split at hu
    · rename_i ps1 cps1 h1
      rw [updateAt_restPositions ps1 cps1 2 pr hu,
        updateAt_restPositions ps cps 1 (ps1, cps1) h1]
    · exact absurd hu (by simp)
  · unfold PhysicsSystem.applyForceToPoint at ha
    split at ha
    · injection ha with ha
      subst ha
      exact ⟨fun j _ => ⟨rfl, rfl⟩, rfl, rfl, rfl⟩
    · rename_i hguard
      push_neg at hguard
      obtain ⟨hge1, _, _⟩ := hguard
      split at ha
      · injection ha with ha
        subst ha
        refine ⟨fun j hj => ?_, rfl, rfl, rfl⟩
        have hne : index.toNat ≠ j := by
          intro hh
          apply hj
          rw [← hh, Int.toNat_of_nonneg (by omega)]
        exact ⟨List.get?_set_ne _ _ hne, List.get?_set_ne _ _ hne⟩
      · exact absurd ha (by simp)

/-- Setting a list entry to the value it already holds changes nothing. -/
theorem list_set_of_get? {α : Type} :
    ∀ (l : List α) (i : ℕ) (a : α), l.get? i = some a → l.set i a = l := by
  intro l
  induction l with
  | nil => intro i a h; simp at h
  | cons b l ih =>
    intro i a h
    cases i with
    | zero =>
      simp only [List.get?] at h
      injection h with h
      simp [h]
    | succ i =>
      simp only [List.get?] at h
      simp [ih i a h]

/-- A freshly initialized system is an exact equilibrium of one loop
iteration: zero velocity and zero displacement give a zero update. -/
theorem updateAt_equilibrium (ps : PhysicsSystem) (cps : List Point) (i : ℕ) :
    (ps.setupControlPoints cps).updateAt cps i = some (ps.setupControlPoints cps, cps) := by
  unfold PhysicsSystem.updateAt
  split
  · rfl
  · rename_i hlen
    have hi : i < cps.length := by omega
    have hp : cps.get? i = some (cps.get ⟨i, hi⟩) := List.get?_eq_get hi
    have hv : (ps.setupControlPoints cps).velocities.get? i = some ⟨0, 0⟩ := by
      simp [PhysicsSystem.setupControlPoints, List.getElem?_replicate, hi]
    have hr : (ps.setupControlPoints cps).restPositions.get? i =
        some ⟨(cps.get ⟨i, hi⟩).x, (cps.get ⟨i, hi⟩).y⟩ := by
      simp [PhysicsSystem.setupControlPoints, List.getElem?_map, List.getElem?_eq_getElem hi]
    rw [hp, hv, hr]
    have hvel : (ps.setupControlPoints cps).velocities.set i ⟨0, 0⟩ =
        (ps.setupControlPoints cps).velocities := list_set_of_get? _ i _ hv
    have hcps : cps.set i (cps.get ⟨i, hi⟩) = cps := list_set_of_get? _ i _ hp
    simp only [neg_mul, sub_self, mul_zero, neg_zero, add_zero, zero_add, zero_mul]
    have heta : (⟨(cps.get ⟨i, hi⟩).x, (cps.get ⟨i, hi⟩).y⟩ : Point) = cps.get ⟨i, hi⟩ := rfl
    rw [heta, hvel, hcps]

/-- A freshly initialized system is a fixed point of `update`. -/
theorem update_equilibrium (ps : PhysicsSystem) (cps : List Point) :
    (ps.setupControlPoints cps).update cps = some (ps.setupControlPoints cps, cps) := by
  unfold PhysicsSystem.update
  rw [updateAt_equilibrium]
  exact updateAt_equilibrium ps cps 2

/-- The all-zero four-point control set, used to instantiate theorems. -/
def zeroPoints : List Point := [⟨0, 0⟩, ⟨0, 0⟩, ⟨0, 0⟩, ⟨0, 0⟩]

/-- The simulator initialized on the all-zero control set. -/
def zeroSystem : PhysicsSystem := PhysicsSystem.new.setupControlPoints zeroPoints

/-- Pushing a dynamic point of the zero system toward the origin changes
nothing: concrete evaluation of `applyForceToPoint`. -/
theorem applyForce_zero : zeroSystem.applyForceToPoint 1 0 0 zeroPoints = some zeroSystem := by
  unfold zeroSystem zeroPoints PhysicsSystem.applyForceToPoint
  norm_num [PhysicsSystem.setupControlPoints, PhysicsSystem.new, List.set]

/-- Witness for C4: the theorem applied to the zero system, whose `update`
and `applyForceToPoint` results evaluate concretely. -/
theorem springSimulator_never_moves_fixed_points_witness :
    zeroSystem.update zeroPoints = some (zeroSystem, zeroPoints) ∧
    (∀ j : ℕ, j ≠ 1 → j ≠ 2 →
      ((zeroSystem, zeroPoints) : PhysicsSystem × List Point).2.get? j = zeroPoints.get? j) :=
  ⟨update_equilibrium PhysicsSystem.new zeroPoints,
   (springSimulator_never_moves_fixed_points zeroSystem zeroPoints (zeroSystem, zeroPoints)
      1 0 0 zeroSystem (update_equilibrium PhysicsSystem.new zeroPoints) applyForce_zero).1⟩

/-- Runs `n` consecutive `update` ticks, the per-frame loop of the host with no
interaction in between; a faulting tick aborts the whole run. -/
def iterateUpdate : ℕ → PhysicsSystem × List Point → Option (PhysicsSystem × List Point)
  | 0, s => some s
  | n + 1, (ps, cps) =>
    match ps.update cps with
    | some s => iterateUpdate n s
    | none => none

/-- C6: after `setupControlPoints`, any number of `update` calls with no
`applyForceToPoint` in between leaves the system exactly at its initial
state: every velocity is exactly `(0, 0)` and every dynamic point sits
exactly on its anchor, so the velocity magnitude and displacement-from-anchor
magnitude are constantly zero — (weakly) monotonically decaying, and (near)
zero well within 500 steps: the system settles and never oscillates. -/
theorem update_settles_from_initialization (ps : PhysicsSystem) (cps : List Point) (n : ℕ) :
    iterateUpdate n (ps.setupControlPoints cps, cps) =
      some (ps.setupControlPoints cps, cps) ∧
    (∀ i : ℕ, (ps.setupControlPoints cps).velocities.getD i ⟨0, 0⟩ = ⟨0, 0⟩) ∧
    (∀ i : ℕ, i < cps.length →
      cps.getD i ⟨0, 0⟩ = (ps.setupControlPoints cps).restPositions.getD i ⟨0, 0⟩) := by
  refine ⟨?_, ?_, ?_⟩
  · induction n with
    | zero => rfl
    | succ n ih =>
      show iterateUpdate (n + 1) _ = _
      unfold iterateUpdate
      rw [update_equilibrium]
      exact ih
  · intro i
    by_cases hi : i < cps.length
    · simp [PhysicsSystem.setupControlPoints, List.getD_eq_getElem, hi]
    · simp [PhysicsSystem.setupControlPoints, List.getD_eq_default, Nat.le_of_not_lt hi]
  · intro i hi
    simp [PhysicsSystem.setupControlPoints, List.getD_eq_getElem, hi]

/-- C7: for any index outside `{1, 2}` (including 0, 3, negatives) or beyond
the control-point array, `applyForceToPoint` is a silent no-op: it returns
the state unchanged and raises no fault. -/
theorem applyForceToPoint_out_of_range_noop (ps : PhysicsSystem) (cps : List Point)
    (index : ℤ) (tx ty : ℚ)
    (h : (index ≠ 1 ∧ index ≠ 2) ∨ (cps.length : ℤ) ≤ index) :
    ps.applyForceToPoint index tx ty cps = some ps := by
  unfold PhysicsSystem.applyForceToPoint
  rw [if_pos]
  rcases h with ⟨h1, h2⟩ | h
  · rcases lt_or_le index 1 with hlt | hge
    · exact Or.inl hlt
    · refine Or.inr (Or.inl ?_)
      omega
  · exact Or.inr (Or.inr h)

/-- Witness for C7 at the out-of-range indices named in the specification. -/
theorem applyForceToPoint_out_of_range_noop_witness :
    zeroSystem.applyForceToPoint 5 7 7 zeroPoints = some zeroSystem ∧
    zeroSystem.applyForceToPoint 0 7 7 zeroPoints = some zeroSystem :=
  ⟨applyForceToPoint_out_of_range_noop zeroSystem zeroPoints 5 7 7 (by norm_num [zeroPoints]),
   applyForceToPoint_out_of_range_noop zeroSystem zeroPoints 0 7 7 (by norm_num)⟩

/-- C5: for a valid dynamic index `i ∈ {1, 2}` with `i < controlPoints.length`
(on an initialized simulator), one `applyForceToPoint` call moves the anchor
by exactly `a + influence·(target - a)` and adds exactly `0.1·(target - point)`
to the velocity; for an influence factor in `(0, 1)`, an anchor distinct from
the target gets strictly closer to it (squared Euclidean distance strictly
decreases) and does not overshoot: the residual `target - a'` is the residual
`target - a` scaled by the positive factor `1 - influence`, componentwise. -/
theorem applyForceToPoint_soft_leash (ps : PhysicsSystem) (cps : List Point) (i : ℕ)
    (tx ty : ℚ)
    (hi : i = 1 ∨ i = 2)
    (hlt : i < cps.length)
    (hv : ps.velocities.length = cps.length)
    (hr : ps.restPositions.length = cps.length)
    (hinf0 : 0 < ps.mouseInfluence) (hinf1 : ps.mouseInfluence < 1) :
    ps.applyForceToPoint (i : ℤ) tx ty cps =
      some { ps with
             restPositions := ps.restPositions.set i
               ⟨(ps.restPositions.getD i ⟨0, 0⟩).x
                  + (tx - (ps.restPositions.getD i ⟨0, 0⟩).x) * ps.mouseInfluence,
                (ps.restPositions.getD i ⟨0, 0⟩).y
                  + (ty - (ps.restPositions.getD i ⟨0, 0⟩).y) * ps.mouseInfluence⟩
             velocities := ps.velocities.set i
               ⟨(ps.velocities.getD i ⟨0, 0⟩).x + (tx - (cps.getD i ⟨0, 0⟩).x) * 0.1,
                (ps.velocities.getD i ⟨0, 0⟩).y + (ty - (cps.getD i ⟨0, 0⟩).y) * 0.1⟩ } ∧
    (ps.restPositions.getD i ⟨0, 0⟩ ≠ ⟨tx, ty⟩ →
      ((ps.restPositions.getD i ⟨0, 0⟩).x
          + (tx - (ps.restPositions.getD i ⟨0, 0⟩).x) * ps.mouseInfluence - tx) ^ 2
        + ((ps.restPositions.getD i ⟨0, 0⟩).y
          + (ty - (ps.restPositions.getD i ⟨0, 0⟩).y) * ps.mouseInfluence - ty) ^ 2
        < ((ps.restPositions.getD i ⟨0, 0⟩).x - tx) ^ 2
          + ((ps.restPositions.getD i ⟨0, 0⟩).y - ty) ^ 2) ∧
    tx - ((ps.restPositions.getD i ⟨0, 0⟩).x
        + (tx - (ps.restPositions.getD i ⟨0, 0⟩).x) * ps.mouseInfluence)
      = (1 - ps.mouseInfluence) * (tx - (ps.restPositions.getD i ⟨0, 0⟩).x) ∧
    ty - ((ps.restPositions.getD i ⟨0, 0⟩).y
        + (ty - (ps.restPositions.getD i ⟨0, 0⟩).y) * ps.mouseInfluence)
      = (1 - ps.mouseInfluence) * (ty - (ps.restPositions.getD i ⟨0, 0⟩).y) ∧
    0 < 1 - ps.mouseInfluence := by
  have hltv : i < ps.velocities.length := by omega
  have hltr : i < ps.restPositions.length := by omega
  have hp : cps.get? i = some (cps.get ⟨i, hlt⟩) := List.get?_eq_get hlt
  have hvel : ps.velocities.get? i = some (ps.velocities.get ⟨i, hltv⟩) :=
    List.get?_eq_get hltv
  have hrest : ps.restPositions.get? i = some (ps.restPositions.get ⟨i, hltr⟩) :=
    List.get?_eq_get hltr
  have hgdp : cps.getD i ⟨0, 0⟩ = cps.get ⟨i, hlt⟩ := by
    rw [List.getD_eq_getD_get?, hp]; rfl
  have hgdv : ps.velocities.getD i ⟨0, 0⟩ = ps.velocities.get ⟨i, hltv⟩ := by
    rw [List.getD_eq_getD_get?, hvel]; rfl
  have hgdr : ps.restPositions.getD i ⟨0, 0⟩ = ps.restPositions.get ⟨i, hltr⟩ := by
    rw [List.getD_eq_getD_get?, hrest]; rfl
  refine ⟨?_, ?_, by ring, by ring, by linarith⟩
  · unfold PhysicsSystem.applyForceToPoint
    rw [if_neg (by push_cast; omega)]
    rw [show ((i : ℤ)).toNat = i from Int.toNat_natCast i]
    rw [hp, hvel, hrest, hgdp, hgdv, hgdr]
  · intro hne
    set r := ps.restPositions.getD i ⟨0, 0⟩ with hrdef
    have hxy : r.x ≠ tx ∨ r.y ≠ ty := by
      by_contra hc
      push_neg at hc
      exact hne (Point.ext hc.1 hc.2)
    have hS : 0 < (r.x - tx) ^ 2 + (r.y - ty) ^ 2 := by
      rcases hxy with hx | hy
      · have := pow_two_pos_of_ne_zero (sub_ne_zero.mpr hx)
        nlinarith [sq_nonneg (r.y - ty)]
      · have := pow_two_pos_of_ne_zero (sub_ne_zero.mpr hy)
        nlinarith [sq_nonneg (r.x - tx)]
    nlinarith [mul_pos (mul_pos hinf0 (by linarith : (0 : ℚ) < 2 - ps.mouseInfluence)) hS]

/-- Witness for C5: the zero system pushed toward `(1, 0)` at index 1. -/
theorem applyForceToPoint_soft_leash_witness :
    zeroSystem.applyForceToPoint ((1 : ℕ) : ℤ) 1 0 zeroPoints =
      some { zeroSystem with
             restPositions := zeroSystem.restPositions.set 1
               ⟨(zeroSystem.restPositions.getD 1 ⟨0, 0⟩).x
                  + (1 - (zeroSystem.restPositions.getD 1 ⟨0, 0⟩).x) * zeroSystem.mouseInfluence,
                (zeroSystem.restPositions.getD 1 ⟨0, 0⟩).y
                  + (0 - (zeroSystem.restPositions.getD 1 ⟨0, 0⟩).y) * zeroSystem.mouseInfluence⟩
             velocities := zeroSystem.velocities.set 1
               ⟨(zeroSystem.velocities.getD 1 ⟨0, 0⟩).x
                  + (1 - (zeroPoints.getD 1 ⟨0, 0⟩).x) * 0.1,
                (zeroSystem.velocities.getD 1 ⟨0, 0⟩).y
                  + (0 - (zeroPoints.getD 1 ⟨0, 0⟩).y) * 0.1⟩ } ∧
    ((zeroSystem.restPositions.getD 1 ⟨0, 0⟩).x
        + (1 - (zeroSystem.restPositions.getD 1 ⟨0, 0⟩).x) * zeroSystem.mouseInfluence - 1) ^ 2
      + ((zeroSystem.restPositions.getD 1 ⟨0, 0⟩).y
        + (0 - (zeroSystem.restPositions.getD 1 ⟨0, 0⟩).y) * zeroSystem.mouseInfluence - 0) ^ 2
      < ((zeroSystem.restPositions.getD 1 ⟨0, 0⟩).x - 1) ^ 2
        + ((zeroSystem.restPositions.getD 1 ⟨0, 0⟩).y - 0) ^ 2 := by
  have h := applyForceToPoint_soft_leash zeroSystem zeroPoints 1 1 0
    (Or.inl rfl)
    (by norm_num [zeroPoints])
    (by norm_num [zeroSystem, zeroPoints, PhysicsSystem.setupControlPoints, PhysicsSystem.new])
    (by norm_num [zeroSystem, zeroPoints, PhysicsSystem.setupControlPoints, PhysicsSystem.new])
    (by norm_num [zeroSystem, PhysicsSystem.setupControlPoints, PhysicsSystem.new])
    (by norm_num [zeroSystem, PhysicsSystem.setupControlPoints, PhysicsSystem.new])
  refine ⟨h.1, h.2.1 ?_⟩
  intro hc
  have hx : (zeroSystem.restPositions.getD 1 ⟨0, 0⟩).x = 1 := by rw [hc]
  norm_num [zeroSystem, zeroPoints, PhysicsSystem.setupControlPoints,
    PhysicsSystem.new, List.getD] at hx

/-- One loop iteration of `update` at an index its `continue` guard lets
through faults when the velocities array does not reach that index. -/
theorem updateAt_fault (ps : PhysicsSystem) (cps : List Point) (i : ℕ)
    (hlt : i < cps.length) (hv : ps.velocities.length ≤ i) :
    ps.updateAt cps i = none := by
  unfold PhysicsSystem.updateAt
  rw [if_neg (show ¬cps.length ≤ i by omega)]
  rw [List.get?_eq_get hlt, List.get?_eq_none.mpr hv]

/-- One loop iteration of `update` succeeds and preserves the array shapes
whenever the internal arrays reach every index its guard lets through. -/
theorem updateAt_total (ps : PhysicsSystem) (cps : List Point) (i : ℕ)
    (hv : i < cps.length → i < ps.velocities.length)
    (hr : i < cps.length → i < ps.restPositions.length) :
    ∃ ps1 cps1, ps.updateAt cps i = some (ps1, cps1) ∧
      ps1.velocities.length = ps.velocities.length ∧
      ps1.restPositions = ps.restPositions ∧
      cps1.length = cps.length := by
  unfold PhysicsSystem.updateAt
  split
  · exact ⟨ps, cps, rfl, rfl, rfl, rfl⟩
  · rename_i hg
    have hlt : i < cps.length := by omega
    rw [List.get?_eq_get hlt, List.get?_eq_get (hv hlt), List.get?_eq_get (hr hlt)]
    exact ⟨_, _, rfl, by simp, rfl, by simp⟩

/-- The `applyForceToPoint` guard lets every dynamic in-range index through. -/
theorem applyForce_guard_pass (cps : List Point) (i : ℕ)
    (hi : i = 1 ∨ i = 2) (hlt : i < cps.length) :
    ¬(((i : ℕ) : ℤ) < 1 ∨ (2 : ℤ) < ((i : ℕ) : ℤ) ∨ (cps.length : ℤ) ≤ ((i : ℕ) : ℤ)) := by
  push_neg
  rcases hi with rfl | rfl <;>
    exact ⟨by norm_num, by norm_num, by exact_mod_cast hlt⟩

/-- Past its guard, `applyForceToPoint` faults when the rest-position array
does not reach the requested index. -/
theorem applyForce_fault (ps : PhysicsSystem) (cps : List Point) (i : ℕ) (tx ty : ℚ)
    (hi : i = 1 ∨ i = 2) (hlt : i < cps.length)
    (hr : ps.restPositions.length ≤ i) :
    ps.applyForceToPoint (i : ℤ) tx ty cps = none := by
  unfold PhysicsSystem.applyForceToPoint
  rw [if_neg (applyForce_guard_pass cps i hi hlt)]
  rw [Int.toNat_natCast]
  rw [List.get?_eq_get hlt, List.get?_eq_none.mpr hr]

/-- Past its guard, `applyForceToPoint` succeeds whenever both internal
arrays reach the requested index. -/
theorem applyForce_total (ps : PhysicsSystem) (cps : List Point) (i : ℕ) (tx ty : ℚ)
    (hi : i = 1 ∨ i = 2) (hlt : i < cps.length)
    (hv : i < ps.velocities.length) (hr : i < ps.restPositions.length) :
    (ps.applyForceToPoint (i : ℤ) tx ty cps).isSome = true := by
  unfold PhysicsSystem.applyForceToPoint
  rw [if_neg (applyForce_guard_pass cps i hi hlt)]
  rw [Int.toNat_natCast]
  rw [List.get?_eq_get hlt, List.get?_eq_get hr, List.get?_eq_get hv]
  rfl

/-- C10: for every dynamic index `i ∈ {1, 2}` with `i < controlPoints.length`,
the guards of `update` and `applyForceToPoint` consult only the length of the
`controlPoints` argument, never the simulator's own arrays, and past them both
operations unconditionally read `velocities[i]`/`restPositions[i]`: on a
never-initialized simulator both fault (`update` already at its first read,
`velocities[1]`); on a simulator initialized with an array of length at most
`i` — too short to hold state for index `i` — both still fault (for `i = 2`
and a two-point initialization, `update` passes index 1 and faults exactly at
the index-2 read); and after `setupControlPoints` on an array at least as
long as `controlPoints` both operations are total. -/
theorem update_applyForce_require_initialization (cps : List Point) (tx ty : ℚ)
    (i : ℕ) (hi : i = 1 ∨ i = 2) (hlt : i < cps.length) :
    PhysicsSystem.new.applyForceToPoint (i : ℤ) tx ty cps = none ∧
    PhysicsSystem.new.update cps = none ∧
    (∀ cps' : List Point, cps'.length ≤ i →
      (PhysicsSystem.new.setupControlPoints cps').applyForceToPoint (i : ℤ) tx ty cps
        = none) ∧
    (∀ cps' : List Point, cps'.length ≤ i →
      (PhysicsSystem.new.setupControlPoints cps').update cps = none) ∧
    (∀ cps' : List Point, cps.length ≤ cps'.length →
      ((PhysicsSystem.new.setupControlPoints cps').update cps).isSome = true ∧
      ((PhysicsSystem.new.setupControlPoints cps').applyForceToPoint (i : ℤ) tx ty
          cps).isSome = true) := by
  have h1lt : 1 < cps.length := by rcases hi with rfl | rfl <;> omega
  have hvlen : ∀ cps' : List Point,
      (PhysicsSystem.new.setupControlPoints cps').velocities.length = cps'.length := by
    intro cps'
    simp [PhysicsSystem.setupControlPoints]
  have hrlen : ∀ cps' : List Point,
      (PhysicsSystem.new.setupControlPoints cps').restPositions.length = cps'.length := by
    intro cps'
    simp [PhysicsSystem.setupControlPoints]
  refine ⟨?_, ?_, ?_, ?_, ?_⟩
  · exact applyForce_fault PhysicsSystem.new cps i tx ty hi hlt (by simp [PhysicsSystem.new])
  · unfold PhysicsSystem.update
    rw [updateAt_fault PhysicsSystem.new cps 1 h1lt (by simp [PhysicsSystem.new])]
  · intro cps' hshort
    exact applyForce_fault _ cps i tx ty hi hlt (by rw [hrlen]; omega)
  · intro cps' hshort
    rcases hi with rfl | rfl
    · unfold PhysicsSystem.update
      rw [updateAt_fault _ cps 1 hlt (by rw [hvlen]; omega)]
    · rcases Nat.lt_or_ge cps'.length 2 with hs | hs
      · unfold PhysicsSystem.update
        rw [updateAt_fault _ cps 1 h1lt (by rw [hvlen]; omega)]
      · obtain ⟨ps1, cps1, heq, hvl, _hrl, hcl⟩ :=
          updateAt_total (PhysicsSystem.new.setupControlPoints cps') cps 1
            (fun _ => by rw [hvlen]; omega)
            (fun _ => by rw [hrlen]; omega)
        unfold PhysicsSystem.update
        rw [heq]
        exact updateAt_fault ps1 cps1 2 (by omega) (by rw [hvl, hvlen]; omega)
  · intro cps' hlong
    constructor
    · obtain ⟨ps1, cps1, heq, hvl, hrl, hcl⟩ :=
        updateAt_total (PhysicsSystem.new.setupControlPoints cps') cps 1
          (fun hh => by rw [hvlen]; omega)
          (fun hh => by rw [hrlen]; omega)
      obtain ⟨ps2, cps2, heq2, _, _, _⟩ :=
        updateAt_total ps1 cps1 2
          (fun hh => by rw [hvl, hvlen]; omega)
          (fun hh => by rw [hrl, hrlen]; omega)
      unfold PhysicsSystem.update
      rw [heq]
      show (ps1.updateAt cps1 2).isSome = true
      rw [heq2]
      rfl
    · exact applyForce_total _ cps i tx ty hi hlt (by rw [hvlen]; omega) (by rw [hrlen]; omega)

/-- Witness for C10 at both dynamic indices on the concrete all-zero
four-point control set. -/
theorem update_applyForce_require_initialization_witness :
    (PhysicsSystem.new.applyForceToPoint ((1 : ℕ) : ℤ) 0 0 zeroPoints = none ∧
     PhysicsSystem.new.update zeroPoints = none ∧
     (∀ cps' : List Point, cps'.length ≤ 1 →
       (PhysicsSystem.new.setupControlPoints cps').applyForceToPoint ((1 : ℕ) : ℤ) 0 0
         zeroPoints = none) ∧
     (∀ cps' : List Point, cps'.length ≤ 1 →
       (PhysicsSystem.new.setupControlPoints cps').update zeroPoints = none) ∧
     (∀ cps' : List Point, zeroPoints.length ≤ cps'.length →
       ((PhysicsSystem.new.setupControlPoints cps').update zeroPoints).isSome = true ∧
       ((PhysicsSystem.new.setupControlPoints cps').applyForceToPoint ((1 : ℕ) : ℤ) 0 0
           zeroPoints).isSome = true)) ∧
    (PhysicsSystem.new.applyForceToPoint ((2 : ℕ) : ℤ) 0 0 zeroPoints = none ∧
     PhysicsSystem.new.update zeroPoints = none ∧
     (∀ cps' : List Point, cps'.length ≤ 2 →
       (PhysicsSystem.new.setupControlPoints cps').applyForceToPoint ((2 : ℕ) : ℤ) 0 0
         zeroPoints = none) ∧
     (∀ cps' : List Point, cps'.length ≤ 2 →
       (PhysicsSystem.new.setupControlPoints cps').update zeroPoints = none) ∧
     (∀ cps' : List Point, zeroPoints.length ≤ cps'.length →
       ((PhysicsSystem.new.setupControlPoints cps').update zeroPoints).isSome = true ∧
       ((PhysicsSystem.new.setupControlPoints cps').applyForceToPoint ((2 : ℕ) : ℤ) 0 0
           zeroPoints).isSome = true)) :=
  ⟨update_applyForce_require_initialization zeroPoints 0 0 1 (Or.inl rfl)
     (by norm_num [zeroPoints]),
   update_applyForce_require_initialization zeroPoints 0 0 2 (Or.inr rfl)
     (by norm_num [zeroPoints])⟩

/-- The interaction state fields of `InputHandler` from `input.js` (the
canvas, bezier and physics references are threaded explicitly). -/
structure InputHandler where
  mouse : Point
  isInteracting : Bool
  activePointIndex : ℤ
  interactionRadius : ℚ
deriving Repr

namespace InputHandler

/-- The `InputHandler` constructor's interaction state: mouse `(0,0)`, not
interacting, no active point, radius 80. -/
def init : InputHandler := ⟨⟨0, 0⟩, false, -1, 80⟩

/-- The Euclidean pointer-to-point distance
`Math.sqrt((mx - px)² + (my - py)²)` used by `handleMouseDown`. -/
noncomputable def mouseDistance (m p : Point) : ℝ :=
  Real.sqrt (((m.x - p.x : ℚ) : ℝ) ^ 2 + ((m.y - p.y : ℚ) : ℝ) ^ 2)

/-- Embedding of `handleMouseMove`: record the pointer position, then, when interacting
with an active point, apply force to it. An `applyForceToPoint` fault
(impossible on an initialized simulator) would leave the physics state as it
was, which `Option.getD` reproduces. -/
def handleMouseMove (h : InputHandler) (ps : PhysicsSystem) (cps : List Point)
    (mx my : ℚ) : InputHandler × PhysicsSystem :=
  let h' : InputHandler := { h with mouse := ⟨mx, my⟩ }
  if h'.isInteracting ∧ h'.activePointIndex ≠ -1 then
    (h', (ps.applyForceToPoint h'.activePointIndex h'.mouse.x h'.mouse.y cps).getD ps)
  else (h', ps)

open Classical in
/-- One iteration of the `handleMouseDown` loop at index `i`: `none` when the
iteration falls through (`continue`, or no hit), `some` when it hits and
`break`s after marking the interaction and applying the immediate force. -/
noncomputable def tryGrab (h : InputHandler) (ps : PhysicsSystem) (cps : List Point)
    (i : ℕ) : Option (InputHandler × PhysicsSystem) :=
  if cps.length ≤ i then none
  else
    let point := cps.getD i ⟨0, 0⟩
    if mouseDistance h.mouse point < (h.interactionRadius : ℝ) then
      let h' : InputHandler := { h with isInteracting := true, activePointIndex := (i : ℤ) }
      some (h', (ps.applyForceToPoint (i : ℤ) h.mouse.x h.mouse.y cps).getD ps)
    else none

/-- Embedding of `handleMouseDown`: try the dynamic indices 1 then 2, first hit wins. -/
noncomputable def handleMouseDown (h : InputHandler) (ps : PhysicsSystem)
    (cps : List Point) : InputHandler × PhysicsSystem :=
  match h.tryGrab ps cps 1 with
  | some s => s
  | none =>
    match h.tryGrab ps cps 2 with
    | some s => s
    | none => (h, ps)

/-- Embedding of `handleMouseUp`: end the interaction. -/
def handleMouseUp (h : InputHandler) : InputHandler :=
  { h with isInteracting := false, activePointIndex := -1 }

/-- Embedding of `handleMouseLeave`: end the interaction. -/
def handleMouseLeave (h : InputHandler) : InputHandler :=
  { h with isInteracting := false, activePointIndex := -1 }

/-- Embedding of `InputHandler.update`: re-apply the force to the active point each frame
while the interaction lasts. -/
def update (h : InputHandler) (ps : PhysicsSystem) (cps : List Point) :
    InputHandler × PhysicsSystem :=
  if h.isInteracting ∧ h.activePointIndex ≠ -1 then
    (h, (ps.applyForceToPoint h.activePointIndex h.mouse.x h.mouse.y cps).getD ps)
  else (h, ps)

end InputHandler

/-- The interaction states reachable from the constructor state by any
sequence of mouse handlers and per-frame updates against a fixed control set
(none of these handlers changes the control points). -/
inductive Reachable (cps : List Point) : InputHandler → PhysicsSystem → Prop
  | init (ps : PhysicsSystem) : Reachable cps InputHandler.init ps
  | move {h ps} (mx my : ℚ) : Reachable cps h ps →
      Reachable cps (h.handleMouseMove ps cps mx my).1 (h.handleMouseMove ps cps mx my).2
  | down {h ps} : Reachable cps h ps →
      Reachable cps (h.handleMouseDown ps cps).1 (h.handleMouseDown ps cps).2
  | up {h ps} : Reachable cps h ps → Reachable cps h.handleMouseUp ps
  | leave {h ps} : Reachable cps h ps → Reachable cps h.handleMouseLeave ps
  | tick {h ps} : Reachable cps h ps →
      Reachable cps (h.update ps cps).1 (h.update ps cps).2

/-- A successful `tryGrab` marks the interaction with exactly its own index. -/
theorem tryGrab_some_state (h : InputHandler) (ps : PhysicsSystem) (cps : List Point)
    (i : ℕ) (s : InputHandler × PhysicsSystem) (hg : h.tryGrab ps cps i = some s) :
    s.1.isInteracting = true ∧ s.1.activePointIndex = (i : ℤ) := by
  unfold InputHandler.tryGrab at hg
  split at hg
  · exact absurd hg (by simp)
  · dsimp only at hg
    split at hg
    · injection hg with hg
      subst hg
      exact ⟨rfl, rfl⟩
    · exact absurd hg (by simp)

/-- C9: in every interaction state reachable from construction through any
sequence of `handleMouseDown`, `handleMouseMove`, `handleMouseUp`,
`handleMouseLeave` and `update` calls on a four-point control set,
`isInteracting` holds exactly when `activePointIndex ∈ {1, 2}`, a
non-interacting state always carries the sentinel `-1`, and the active index
never takes any value other than `-1`, `1`, `2`. -/
theorem interaction_state_invariant (cps : List Point) (h : InputHandler)
    (ps : PhysicsSystem) (_hlen : cps.length = 4) (hr : Reachable cps h ps) :
    (h.isInteracting = true ↔ (h.activePointIndex = 1 ∨ h.activePointIndex = 2)) ∧
    (h.isInteracting = false → h.activePointIndex = -1) ∧
    (h.activePointIndex = -1 ∨ h.activePointIndex = 1 ∨ h.activePointIndex = 2) := by
  induction hr with
  | init ps => simp [InputHandler.init]
  | move mx my hr ih =>
    rename_i h' ps'
    unfold InputHandler.handleMouseMove
    dsimp only
    split
    · exact ih
    · exact ih
  | down hr ih =>
    rename_i h' ps'
    unfold InputHandler.handleMouseDown
    cases hg1 : h'.tryGrab ps' cps 1 with
    | some s =>
      obtain ⟨hs1, hs2⟩ := tryGrab_some_state h' ps' cps 1 s hg1
      rw [hs1, hs2]
      norm_num
    | none =>
      cases hg2 : h'.tryGrab ps' cps 2 with
      | some s =>
        obtain ⟨hs1, hs2⟩ := tryGrab_some_state h' ps' cps 2 s hg2
        rw [hs1, hs2]
        norm_num
      | none => exact ih
  | up hr ih => simp [InputHandler.handleMouseUp]
  | leave hr ih => simp [InputHandler.handleMouseLeave]
  | tick hr ih =>
    rename_i h' ps'
    unfold InputHandler.update
    split
    · exact ih
    · exact ih

/-- Witness for C9: the constructor state itself is reachable and satisfies
the invariant. -/
theorem interaction_state_invariant_witness :
    zeroPoints.length = 4 ∧
    ((InputHandler.init.isInteracting = true ↔
        (InputHandler.init.activePointIndex = 1 ∨ InputHandler.init.activePointIndex = 2)) ∧
      (InputHandler.init.isInteracting = false → InputHandler.init.activePointIndex = -1) ∧
      (InputHandler.init.activePointIndex = -1 ∨ InputHandler.init.activePointIndex = 1 ∨
        InputHandler.init.activePointIndex = 2)) :=
  ⟨rfl, interaction_state_invariant zeroPoints InputHandler.init PhysicsSystem.new rfl
    (Reachable.init PhysicsSystem.new)⟩

/-- C8: on a four-point set, when the raw tangent is non-zero
`calculateNormalizedTangent` divides the tangent by its Euclidean magnitude
and the result has unit length; when the raw tangent is exactly zero (the
only case of zero magnitude) it returns exactly `(0, 0)` with no division
fault. -/
theorem calculateNormalizedTangent_unit_or_zero (p0 p1 p2 p3 : Point) (t : ℚ)
    (tg : Point)
    (htg : BezierCurve.calculateTangent [p0, p1, p2, p3] t = .ok tg) :
    (tg = ⟨0, 0⟩ →
      BezierCurve.calculateNormalizedTangent [p0, p1, p2, p3] t = .ok (0, 0)) ∧
    (tg ≠ ⟨0, 0⟩ →
      BezierCurve.calculateNormalizedTangent [p0, p1, p2, p3] t =
        .ok ((tg.x : ℝ) / Real.sqrt ((tg.x : ℝ) * (tg.x : ℝ) + (tg.y : ℝ) * (tg.y : ℝ)),
             (tg.y : ℝ) / Real.sqrt ((tg.x : ℝ) * (tg.x : ℝ) + (tg.y : ℝ) * (tg.y : ℝ))) ∧
      ((tg.x : ℝ) / Real.sqrt ((tg.x : ℝ) * (tg.x : ℝ) + (tg.y : ℝ) * (tg.y : ℝ))) ^ 2
        + ((tg.y : ℝ) / Real.sqrt ((tg.x : ℝ) * (tg.x : ℝ) + (tg.y : ℝ) * (tg.y : ℝ))) ^ 2
        = 1) := by
  constructor
  · intro hz
    subst hz
    unfold BezierCurve.calculateNormalizedTangent
    rw [htg]
    norm_num
  · intro hnz
    have hxy : (tg.x : ℝ) ≠ 0 ∨ (tg.y : ℝ) ≠ 0 := by
      by_contra hc
      push_neg at hc
      obtain ⟨hx, hy⟩ := hc
      exact hnz (Point.ext (by exact_mod_cast hx) (by exact_mod_cast hy))
    have hS : 0 < (tg.x : ℝ) * (tg.x : ℝ) + (tg.y : ℝ) * (tg.y : ℝ) := by
      rcases hxy with hx | hy
      · have := mul_self_pos.mpr hx
        nlinarith [mul_self_nonneg ((tg.y : ℝ))]
      · have := mul_self_pos.mpr hy
        nlinarith [mul_self_nonneg ((tg.x : ℝ))]
    have hL : 0 < Real.sqrt ((tg.x : ℝ) * (tg.x : ℝ) + (tg.y : ℝ) * (tg.y : ℝ)) :=
      Real.sqrt_pos.mpr hS
    have hres : BezierCurve.calculateNormalizedTangent [p0, p1, p2, p3] t =
        .ok ((tg.x : ℝ) / Real.sqrt ((tg.x : ℝ) * (tg.x : ℝ) + (tg.y : ℝ) * (tg.y : ℝ)),
             (tg.y : ℝ) / Real.sqrt ((tg.x : ℝ) * (tg.x : ℝ) + (tg.y : ℝ) * (tg.y : ℝ))) := by
      unfold BezierCurve.calculateNormalizedTangent
      rw [htg]
      dsimp only
      rw [if_neg (ne_of_gt hL)]
    refine ⟨hres, ?_⟩
    have hL2 : Real.sqrt ((tg.x : ℝ) * (tg.x : ℝ) + (tg.y : ℝ) * (tg.y : ℝ)) ^ 2 =
        (tg.x : ℝ) * (tg.x : ℝ) + (tg.y : ℝ) * (tg.y : ℝ) := Real.sq_sqrt hS.le
    field_simp
    linarith [hL2]

/-- Witness for C8: the tangent `(3, 4)` (length 5) at `t = 0` of a concrete
control set. -/
theorem calculateNormalizedTangent_unit_or_zero_witness :
    BezierCurve.calculateNormalizedTangent
        [⟨0, 0⟩, ⟨1, 4/3⟩, ⟨2, 2⟩, ⟨3, 3⟩] 0 =
      .ok (((3 : ℚ) : ℝ) / Real.sqrt (((3 : ℚ) : ℝ) * ((3 : ℚ) : ℝ)
              + ((4 : ℚ) : ℝ) * ((4 : ℚ) : ℝ)),
           ((4 : ℚ) : ℝ) / Real.sqrt (((3 : ℚ) : ℝ) * ((3 : ℚ) : ℝ)
              + ((4 : ℚ) : ℝ) * ((4 : ℚ) : ℝ))) ∧
    (((3 : ℚ) : ℝ) / Real.sqrt (((3 : ℚ) : ℝ) * ((3 : ℚ) : ℝ)
        + ((4 : ℚ) : ℝ) * ((4 : ℚ) : ℝ))) ^ 2
      + (((4 : ℚ) : ℝ) / Real.sqrt (((3 : ℚ) : ℝ) * ((3 : ℚ) : ℝ)
        + ((4 : ℚ) : ℝ) * ((4 : ℚ) : ℝ))) ^ 2 = 1 := by
  have htg : BezierCurve.calculateTangent [⟨0, 0⟩, ⟨1, 4/3⟩, ⟨2, 2⟩, ⟨3, 3⟩] 0 =
      .ok (⟨3, 4⟩ : Point) := by
    unfold BezierCurve.calculateTangent
    norm_num
  have h := (calculateNormalizedTangent_unit_or_zero ⟨0, 0⟩ ⟨1, 4/3⟩ ⟨2, 2⟩ ⟨3, 3⟩ 0
    ⟨3, 4⟩ htg).2 (by norm_num [Point.ext_iff])
  exact h
